import Mathlib

/-
Verification of the Pomodoro timer core (src/pomodoro.py): the session
planner (`setup_pomodoro`) and the timer engine (`run_timer`, the navigation
callbacks and the notification helpers), shallowly embedded as pure
functions over an explicit `TimerState`.
-/

namespace Pomodoro

/-- Session kind, the second component of the tuples stored in
`session_sequence` (the Python strings 'work' and 'break'). -/
inductive Kind
  | work
  | brk
deriving DecidableEq

/-- A session is a pair `(duration_in_seconds, kind)`, mirroring the tuples
appended by `setup_pomodoro`. -/
abbrev Session := Nat × Kind

/-- Notifier events: `notify_session_start` raises `nstart`
("Work Session Started!" with start.wav); `notify_session_end` raises
`nend_final` ("Final Work Session Completed!" with final.wav) or
`nend_intermediate` ("Work Session Ended!" with end.wav). -/
inductive Notif
  | nstart
  | nend_intermediate
  | nend_final
deriving DecidableEq

/-- The mutable timer fields of the `PomodoroTimer` object:
`session_sequence`, `current_session_index`, `is_paused`, `time_remaining`,
and whether the start/pause button is enabled (tk.NORMAL vs tk.DISABLED). -/
structure TimerState where
  session_sequence : List Session
  current_session_index : Nat
  is_paused : Bool
  time_remaining : Nat
  pause_button_enabled : Bool
deriving DecidableEq

/-- The state set up by `__init__` (lines 18-29) together with the start
button created disabled (line 59). -/
def initState : TimerState :=
  { session_sequence := []
    current_session_index := 0
    is_paused := true
    time_remaining := 0
    pause_button_enabled := false }

/-- The comparison `tuple[1] == 'work'` used on sessions. -/
def isWorkSession (x : Session) : Bool :=
  match x.2 with
  | Kind.work => true
  | Kind.brk => false

/-- The comparison `tuple[1] == 'break'`. -/
def isBreakSession (x : Session) : Bool :=
  match x.2 with
  | Kind.work => false
  | Kind.brk => true

/-- The sequence-building loop of `setup_pomodoro` (lines 83-87):
for each `i` in `range(total)` append a work session, and after every work
session but the last append a break session. -/
def setupSequence (total work_secs break_secs : Nat) : List Session :=
  (List.range total).foldl
    (fun seq i =>
      let seq2 := seq ++ [(work_secs, Kind.work)]
      if i < total - 1 then seq2 ++ [(break_secs, Kind.brk)] else seq2)
    []

/-- The list contributed by iteration `i` of the loop in `setup_pomodoro`:
a work session, followed by a break session unless `i` is the last index. -/
def buildChunk (total work_secs break_secs i : Nat) : List Session :=
  (work_secs, Kind.work) ::
    (if i < total - 1 then [(break_secs, Kind.brk)] else [])

/-- Structural description of the sequence built by `setup_pomodoro`,
proved equal to `setupSequence` in `setupSequence_eq_buildRec`. -/
def buildRec (work_secs break_secs : Nat) : Nat → List Session
  | 0 => []
  | 1 => [(work_secs, Kind.work)]
  | total + 2 =>
      (work_secs, Kind.work) :: (break_secs, Kind.brk) ::
        buildRec work_secs break_secs (total + 1)

lemma foldl_buildChunk (total ws bs : Nat) :
    ∀ (l : List Nat) (acc : List Session),
      l.foldl
        (fun seq i =>
          let seq2 := seq ++ [(ws, Kind.work)]
          if i < total - 1 then seq2 ++ [(bs, Kind.brk)] else seq2)
        acc
      = acc ++ (l.map (buildChunk total ws bs)).flatten
  | [], acc => by simp
  | i :: l, acc => by
      rw [List.foldl_cons, foldl_buildChunk total ws bs l]
      simp only [buildChunk, List.map_cons, List.flatten_cons]
      by_cases h : i < total - 1 <;> simp [h, List.append_assoc]

lemma setupSequence_flatten (total ws bs : Nat) :
    setupSequence total ws bs
      = ((List.range total).map (buildChunk total ws bs)).flatten := by
  unfold setupSequence
  rw [foldl_buildChunk]
  simp

lemma buildChunk_succ (total ws bs i : Nat) (h : i < total) :
    buildChunk (total + 1) ws bs (i + 1) = buildChunk total ws bs i := by
  unfold buildChunk
  by_cases h2 : i < total - 1 <;> simp [h2] <;> omega

lemma setupSequence_eq_buildRec (ws bs : Nat) :
    ∀ total, setupSequence total ws bs = buildRec ws bs total := by
  intro total
  induction total with
  | zero => rfl
  | succ t ih =>
      rw [setupSequence_flatten, List.range_succ_eq_map]
      simp only [List.map_cons, List.flatten_cons, List.map_map]
      have hmap : (List.range t).map (buildChunk (t + 1) ws bs ∘ Nat.succ)
          = (List.range t).map (buildChunk t ws bs) := by
        apply List.map_congr_left
        intro i hi
        exact buildChunk_succ t ws bs i (List.mem_range.mp hi)
      rw [hmap, ← setupSequence_flatten, ih]
      cases t with
      | zero => rfl
      | succ t2 => simp [buildChunk, buildRec]

lemma buildRec_length (ws bs : Nat) :
    ∀ total, (buildRec ws bs total).length = 2 * total - 1
  | 0 => rfl
  | 1 => rfl
  | total + 2 => by
      have ih := buildRec_length ws bs (total + 1)
      simp only [buildRec, List.length_cons, ih]
      omega

lemma buildRec_get (ws bs : Nat) :
    ∀ total i, i < 2 * total - 1 →
      (buildRec ws bs total)[i]?
        = some (if i % 2 = 0 then (ws, Kind.work) else (bs, Kind.brk))
  | 0, i, h => absurd h (by omega)
  | 1, 0, _ => by simp [buildRec]
  | 1, i + 1, h => absurd h (by omega)
  | total + 2, 0, _ => by simp [buildRec]
  | total + 2, 1, _ => by simp [buildRec]
  | total + 2, i + 2, h => by
      have ih := buildRec_get ws bs (total + 1) i (by omega)
      have hmod : (i + 2) % 2 = i % 2 := Nat.add_mod_right i 2
      simp only [buildRec, List.getElem?_cons_succ, ih, hmod]

lemma buildRec_count_work (ws bs : Nat) :
    ∀ total, (buildRec ws bs total).countP isWorkSession = total
  | 0 => rfl
  | 1 => rfl
  | total + 2 => by
      have ih := buildRec_count_work ws bs (total + 1)
      simp [buildRec, List.countP_cons, ih, isWorkSession]

lemma buildRec_count_brk (ws bs : Nat) :
    ∀ total, (buildRec ws bs total).countP isBreakSession = total - 1
  | 0 => rfl
  | 1 => rfl
  | total + 2 => by
      have ih := buildRec_count_brk ws bs (total + 1)
      simp [buildRec, List.countP_cons, ih, isBreakSession]

/-- C1: for every configuration with `workSessionCount = n ≥ 1`,
`workMinutes = w`, `breakMinutes = b`, the sequence built by
`setup_pomodoro` has length `2n-1`, a Work session of `w*60` seconds at
every even index and a Break session of `b*60` seconds at every odd index,
hence exactly `n` Work entries and `n-1` Break entries, alternating and
ending on Work. -/
theorem setup_sequence_shape (n w b : Nat) (hn : 1 ≤ n) :
    (setupSequence n (w * 60) (b * 60)).length = 2 * n - 1 ∧
    (∀ i, i < 2 * n - 1 →
      (setupSequence n (w * 60) (b * 60))[i]?
        = some (if i % 2 = 0 then (w * 60, Kind.work) else (b * 60, Kind.brk))) ∧
    (setupSequence n (w * 60) (b * 60)).countP isWorkSession = n ∧
    (setupSequence n (w * 60) (b * 60)).countP isBreakSession = n - 1 := by
  rw [setupSequence_eq_buildRec]
  exact ⟨buildRec_length _ _ n,
    fun i hi => buildRec_get _ _ n i hi,
    buildRec_count_work _ _ n,
    buildRec_count_brk _ _ n⟩

theorem setup_sequence_shape_check :
    (setupSequence 4 (25 * 60) (5 * 60)).length = 2 * 4 - 1 :=
  (setup_sequence_shape 4 25 5 (by decide)).1

/-- Outcome of a UI callback: `ok` with the new state and the Notifier
events it raised, `reportedError` for `messagebox.showerror` (line 97,
state unchanged), or `indexError` for an uncaught Python `IndexError`
carrying the state at the moment the exception is raised. -/
inductive CommandOutcome
  | ok (s : TimerState) (notifs : List Notif)
  | reportedError (s : TimerState)
  | indexError (s : TimerState)
deriving DecidableEq

/-- `setup_pomodoro` (lines 71-92): pause, re-enable the start button,
rebuild `session_sequence` from the three configuration values, reset
`current_session_index` to 0 and load the first session's duration
(line 90, an `IndexError` when the sequence is empty). -/
def setup_pomodoro (num_work_sessions work_length_minutes break_length_minutes : Nat)
    (s : TimerState) : CommandOutcome :=
  let work_secs := work_length_minutes * 60
  let break_secs := break_length_minutes * 60
  let seq := setupSequence num_work_sessions work_secs break_secs
  let s1 : TimerState :=
    { s with is_paused := true, pause_button_enabled := true,
             session_sequence := seq, current_session_index := 0 }
  match seq[(0 : Nat)]? with
  | none => CommandOutcome.indexError s1
  | some first => CommandOutcome.ok { s1 with time_remaining := first.1 } []

/-- `toggle_pause` (lines 94-110): with no sequence configured it shows an
error box and returns; otherwise it flips `is_paused` (starting the
countdown thread when unpausing). It raises no Notifier events. -/
def toggle_pause (s : TimerState) : CommandOutcome :=
  if s.session_sequence = [] then CommandOutcome.reportedError s
  else if s.is_paused then CommandOutcome.ok { s with is_paused := false } []
  else CommandOutcome.ok { s with is_paused := true } []

/-- `forward` (lines 155-157): unconditionally set `time_remaining` to 0;
the running countdown then performs the end-of-session processing. -/
def forward (s : TimerState) : CommandOutcome :=
  CommandOutcome.ok { s with time_remaining := 0 } []

/-- `backward` (lines 159-176): with more than 5 elapsed seconds
(`duration - remaining`, a Python int) reset the current session;
otherwise move to the start of the previous session when one exists.
Indexing `session_sequence[current_session_index]` raises `IndexError`
when the index is out of range (line 164). -/
def backward (s : TimerState) : CommandOutcome :=
  match s.session_sequence[s.current_session_index]? with
  | none => CommandOutcome.indexError s
  | some cur =>
    let current_duration := cur.1
    let elapsed : Int := (current_duration : Int) - (s.time_remaining : Int)
    if elapsed > 5 then
      CommandOutcome.ok { s with time_remaining := current_duration } []
    else if 0 < s.current_session_index then
      match s.session_sequence[s.current_session_index - 1]? with
      | none => CommandOutcome.indexError s
      | some prev =>
        CommandOutcome.ok
          { s with current_session_index := s.current_session_index - 1,
                   time_remaining := prev.1 } []
    else CommandOutcome.ok s []

/-- `reset_current_timer` (lines 178-181): reload the current session's
full duration (an `IndexError` when the index is out of range). -/
def reset_current_timer (s : TimerState) : CommandOutcome :=
  match s.session_sequence[s.current_session_index]? with
  | none => CommandOutcome.indexError s
  | some cur => CommandOutcome.ok { s with time_remaining := cur.1 } []

/-- One iteration of the countdown loop body (lines 125-129): while not
paused and time remains, one elapsed second decrements `time_remaining`. -/
def tick (s : TimerState) : TimerState :=
  if s.is_paused = false ∧ 0 < s.time_remaining then
    { s with time_remaining := s.time_remaining - 1 }
  else s

/-- `notify_session_end` (lines 188-209): count the work sessions at
indices up to and including `idx`; when that count equals the configured
total number of work sessions the notification is the final one,
otherwise the intermediate one. -/
def end_notification (seq : List Session) (idx total_work_sessions : Nat) : Notif :=
  let work_session_count := (seq.take (idx + 1)).countP isWorkSession
  if work_session_count = total_work_sessions then Notif.nend_final
  else Notif.nend_intermediate

/-- `run_timer` (lines 112-147) run to completion without interference
from other threads, returning the Notifier events in order and the final
state (`none` models the `IndexError` raised by line 117 when the current
index is out of range). The entry fires the start notification for a work
session at its full duration; the countdown loop then brings
`time_remaining` to 0 unless paused; reaching 0 while unpaused fires the
end notification for a work session, advances the index and either
recurses into the next session or completes, pausing and disabling the
start button (lines 146-147). `total` stands for the value read from
`num_work_sessions` at notification time. -/
def run_timer (total : Nat) (s : TimerState) : Option (List Notif × TimerState) :=
  if h : s.current_session_index < s.session_sequence.length then
    let sess := s.session_sequence[s.current_session_index]
    let startNs : List Notif :=
      if s.time_remaining = sess.1 ∧ sess.2 = Kind.work then [Notif.nstart] else []
    if s.is_paused then some (startNs, s)
    else
      let endNs : List Notif :=
        if sess.2 = Kind.work then
          [end_notification s.session_sequence s.current_session_index total]
        else []
      match s.session_sequence[s.current_session_index + 1]? with
      | some next =>
        match run_timer total { s with current_session_index := s.current_session_index + 1,
                                       time_remaining := next.1 } with
        | none => none
        | some (ns, sf) => some (startNs ++ endNs ++ ns, sf)
      | none =>
        some (startNs ++ endNs,
          { s with current_session_index := s.current_session_index + 1,
                   time_remaining := 0, is_paused := true, pause_button_enabled := false })
  else none
termination_by s.session_sequence.length - s.current_session_index
decreasing_by
  show s.session_sequence.length - (s.current_session_index + 1) <
    s.session_sequence.length - s.current_session_index
  omega

/-- The tail of `run_timer` from the countdown loop on (lines 125-147),
with the session kind captured at entry (line 117) passed in: when paused
neither the loop nor the end-of-session branch does anything; otherwise
the countdown reaches 0 and the boundary processing runs. -/
def countdown_boundary (total : Nat) (current_session_type : Kind) (s : TimerState) :
    Option (List Notif × TimerState) :=
  if s.is_paused then some ([], s)
  else
    let endNs : List Notif :=
      if current_session_type = Kind.work then
        [end_notification s.session_sequence s.current_session_index total]
      else []
    match s.session_sequence[s.current_session_index + 1]? with
    | some next =>
      match run_timer total { s with current_session_index := s.current_session_index + 1,
                                     time_remaining := next.1 } with
      | none => none
      | some (ns, sf) => some (endNs ++ ns, sf)
    | none =>
      some (endNs,
        { s with current_session_index := s.current_session_index + 1,
                 time_remaining := 0, is_paused := true, pause_button_enabled := false })

/-- The state change of a single boundary evaluation (lines 132-147),
guarded by the entry precondition that the current index is in range:
when `time_remaining` is 0 and the timer is not paused, advance the index
and either load the next session's duration or complete (pause and
disable the start button). -/
def boundary_step (s : TimerState) : Option TimerState :=
  match s.session_sequence[s.current_session_index]? with
  | none => none
  | some _ =>
    if s.time_remaining = 0 ∧ s.is_paused = false then
      match s.session_sequence[s.current_session_index + 1]? with
      | some next =>
        some { s with current_session_index := s.current_session_index + 1,
                      time_remaining := next.1 }
      | none =>
        some { s with current_session_index := s.current_session_index + 1,
                      time_remaining := 0, is_paused := true,
                      pause_button_enabled := false }
    else none

/-- The state left behind when `setup_pomodoro` raises `IndexError` at
line 90: sequence cleared, index reset, paused, start button re-enabled,
`time_remaining` untouched. -/
def clearedState (s : TimerState) : TimerState :=
  { s with session_sequence := [], current_session_index := 0,
           is_paused := true, pause_button_enabled := true }

/-- States reachable from a configure (`setup_pomodoro`, including a crash
of it) through ticks, boundary evaluations of the countdown thread and
the UI navigation callbacks. -/
inductive Reachable : TimerState → Prop
  | setup_ok (n w b : Nat) (s1 : TimerState) (ns : List Notif) :
      setup_pomodoro n w b initState = CommandOutcome.ok s1 ns → Reachable s1
  | setup_again (n w b : Nat) (s s1 : TimerState) (ns : List Notif) :
      Reachable s → setup_pomodoro n w b s = CommandOutcome.ok s1 ns → Reachable s1
  | setup_err (n w b : Nat) (s s1 : TimerState) :
      Reachable s → setup_pomodoro n w b s = CommandOutcome.indexError s1 → Reachable s1
  | tick_step (s : TimerState) : Reachable s → Reachable (tick s)
  | toggle (s s1 : TimerState) (ns : List Notif) :
      Reachable s → toggle_pause s = CommandOutcome.ok s1 ns → Reachable s1
  | fwd (s s1 : TimerState) (ns : List Notif) :
      Reachable s → forward s = CommandOutcome.ok s1 ns → Reachable s1
  | bwd (s s1 : TimerState) (ns : List Notif) :
      Reachable s → backward s = CommandOutcome.ok s1 ns → Reachable s1
  | rst (s s1 : TimerState) (ns : List Notif) :
      Reachable s → reset_current_timer s = CommandOutcome.ok s1 ns → Reachable s1
  | boundary (s s1 : TimerState) :
      Reachable s → boundary_step s = some s1 → Reachable s1

lemma run_timer_decomp (total : Nat) (s : TimerState) (sess : Session)
    (hsess : s.session_sequence[s.current_session_index]? = some sess) :
    run_timer total s =
      match countdown_boundary total sess.2 s with
      | none => none
      | some (ns, sf) =>
        some ((if s.time_remaining = sess.1 ∧ sess.2 = Kind.work then [Notif.nstart]
               else []) ++ ns, sf) := by
  obtain ⟨seq, idx, p, rem, btn⟩ := s
  obtain ⟨h, hval⟩ := List.getElem?_eq_some.mp hsess
  unfold run_timer countdown_boundary
  rw [dif_pos h]
  simp only at hval
  simp only [hval]
  cases p with
  | true => simp
  | false =>
      simp only [Bool.false_eq_true, if_false]
      cases hnext : seq[idx + 1]? with
      | none => simp [hnext]
      | some next =>
          simp only [hnext]
          cases hrt : run_timer total (TimerState.mk seq (idx + 1) false next.1 btn) with
          | none => simp [hrt]
          | some q =>
              obtain ⟨ns, sf⟩ := q
              simp [hrt, List.append_assoc]

lemma run_timer_isSome_fuel (total : Nat) :
    ∀ (fuel : Nat) (s : TimerState),
      s.session_sequence.length - s.current_session_index ≤ fuel →
      s.current_session_index < s.session_sequence.length →
      (run_timer total s).isSome := by
  intro fuel
  induction fuel with
  | zero => intro s hf h; omega
  | succ f ih =>
      intro s hf h
      obtain ⟨seq, idx, p, rem, btn⟩ := s
      simp only at hf h
      unfold run_timer
      rw [dif_pos h]
      cases p with
      | true => simp
      | false =>
          simp only [Bool.false_eq_true, if_false]
          cases hnext : seq[idx + 1]? with
          | none => simp [hnext]
          | some next =>
              simp only [hnext]
              have h2 : idx + 1 < seq.length := (List.getElem?_eq_some.mp hnext).1
              have := ih (TimerState.mk seq (idx + 1) false next.1 btn)
                (by simp only; omega) (by simpa using h2)
              cases hrt : run_timer total (TimerState.mk seq (idx + 1) false next.1 btn) with
              | none => rw [hrt] at this; simp at this
              | some q =>
                  obtain ⟨ns, sf⟩ := q
                  simp [hrt]

lemma run_timer_isSome (total : Nat) (s : TimerState)
    (h : s.current_session_index < s.session_sequence.length) :
    (run_timer total s).isSome :=
  run_timer_isSome_fuel total s.session_sequence.length s (by omega) h

lemma countdown_boundary_isSome (total : Nat) (kind : Kind) (s : TimerState)
    (h : s.current_session_index < s.session_sequence.length) :
    (countdown_boundary total kind s).isSome := by
  obtain ⟨seq, idx, p, rem, btn⟩ := s
  simp only at h
  unfold countdown_boundary
  cases p with
  | true => simp
  | false =>
      simp only [Bool.false_eq_true, if_false]
      cases hnext : seq[idx + 1]? with
      | none => simp [hnext]
      | some next =>
          simp only [hnext]
          have h2 : idx + 1 < seq.length := (List.getElem?_eq_some.mp hnext).1
          have := run_timer_isSome total (TimerState.mk seq (idx + 1) false next.1 btn)
            (by simpa using h2)
          cases hrt : run_timer total (TimerState.mk seq (idx + 1) false next.1 btn) with
          | none => rw [hrt] at this; simp at this
          | some q =>
              obtain ⟨ns, sf⟩ := q
              simp [hrt]

lemma countdown_boundary_time_indep (total : Nat) (kind : Kind)
    (seq : List Session) (idx : Nat) (r1 r2 : Nat) (btn : Bool) :
    countdown_boundary total kind (TimerState.mk seq idx false r1 btn) =
      countdown_boundary total kind (TimerState.mk seq idx false r2 btn) := by
  unfold countdown_boundary
  simp

/-- C2: for every configured sequence and every Work session whose
`time_remaining` reaches 0 while running, the boundary processing fires an
end-of-session notification classified by counting the Work sessions at
indices up to and including the current one — Final when that count equals
the configured total Work session count, Intermediate otherwise; with
`workSessionCount = 3`, ending the Work session at index 4 is Final while
ending the ones at index 0 or 2 is Intermediate. -/
theorem end_classification_spec (total w b : Nat) (s : TimerState)
    (hp : s.is_paused = false)
    (hidx : s.current_session_index < s.session_sequence.length) :
    (∃ rest sf, countdown_boundary total Kind.work s =
        some (end_notification s.session_sequence s.current_session_index total :: rest, sf)) ∧
    end_notification (setupSequence 3 (w * 60) (b * 60)) 4 3 = Notif.nend_final ∧
    end_notification (setupSequence 3 (w * 60) (b * 60)) 0 3 = Notif.nend_intermediate ∧
    end_notification (setupSequence 3 (w * 60) (b * 60)) 2 3 = Notif.nend_intermediate := by
  refine ⟨?_, ?_, ?_, ?_⟩
  · obtain ⟨seq, idx, p, rem, btn⟩ := s
    simp only at hp hidx
    subst hp
    unfold countdown_boundary
    simp only [Bool.false_eq_true, if_false]
    cases hnext : seq[idx + 1]? with
    | none => exact ⟨[], TimerState.mk seq (idx + 1) true 0 false, by simp [hnext]⟩
    | some next =>
        have h2 : idx + 1 < seq.length := (List.getElem?_eq_some.mp hnext).1
        have hs := run_timer_isSome total (TimerState.mk seq (idx + 1) false next.1 btn)
          (by simpa using h2)
        cases hrt : run_timer total (TimerState.mk seq (idx + 1) false next.1 btn) with
        | none => rw [hrt] at hs; simp at hs
        | some q =>
            obtain ⟨ns, sf⟩ := q
            exact ⟨ns, sf, by simp [hnext, hrt]⟩
  · rw [setupSequence_eq_buildRec]
    simp [buildRec, end_notification, isWorkSession]
  · rw [setupSequence_eq_buildRec]
    simp [buildRec, end_notification, isWorkSession]
  · rw [setupSequence_eq_buildRec]
    simp [buildRec, end_notification, isWorkSession]

theorem end_classification_check :
    end_notification (setupSequence 3 (25 * 60) (5 * 60)) 4 3 = Notif.nend_final :=
  (end_classification_spec 3 25 5 ⟨[((60 : Nat), Kind.work)], 0, false, 60, true⟩
    rfl (by decide)).2.1

/-- C5: for every configured state, `backward` resets the current session
when more than 5 seconds have elapsed (duration minus remaining), moves to
the previous session's full duration when elapsed ≤ 5 and the index is
positive, is a no-op when elapsed ≤ 5 at index 0, and raises no start or
end notification in any case. -/
theorem backward_spec (s : TimerState) (cur : Session)
    (hcur : s.session_sequence[s.current_session_index]? = some cur) :
    backward s =
      if (cur.1 : Int) - (s.time_remaining : Int) > 5 then
        CommandOutcome.ok { s with time_remaining := cur.1 } []
      else if 0 < s.current_session_index then
        CommandOutcome.ok
          { s with
              current_session_index := s.current_session_index - 1,
              time_remaining :=
                ((s.session_sequence[s.current_session_index - 1]?).getD cur).1 }
          []
      else CommandOutcome.ok s [] := by
  have h : s.current_session_index < s.session_sequence.length :=
    (List.getElem?_eq_some.mp hcur).1
  unfold backward
  rw [hcur]
  by_cases h5 : (cur.1 : Int) - (s.time_remaining : Int) > 5
  · simp [h5]
  · simp only [h5, if_false]
    by_cases h0 : 0 < s.current_session_index
    · have h1 : s.current_session_index - 1 < s.session_sequence.length := by omega
      rw [List.getElem?_eq_getElem h1]
      simp [h0]
    · simp [h0]

theorem backward_check :
    backward ⟨[((1500 : Nat), Kind.work), ((300 : Nat), Kind.brk)], 1, false, 300, true⟩ =
      CommandOutcome.ok
        ⟨[((1500 : Nat), Kind.work), ((300 : Nat), Kind.brk)], 0, false, 1500, true⟩ [] :=
  (backward_spec ⟨[((1500 : Nat), Kind.work), ((300 : Nat), Kind.brk)], 1, false, 300, true⟩
    ((300 : Nat), Kind.brk) rfl).trans (by decide)

/-- C7: `forward` sets `time_remaining` to 0, and the boundary processing
that then runs (the countdown tail of `run_timer`) is the very same
processing, with the same result, as when `time_remaining` reaches 0 by
natural countdown from any point of any session: while unpaused the
countdown tail does not depend on the remaining time at all. -/
theorem forward_boundary_spec (total : Nat) (kind : Kind) (s sFwd : TimerState)
    (hf : forward s = CommandOutcome.ok sFwd []) :
    sFwd.time_remaining = 0 ∧
    countdown_boundary total kind { sFwd with is_paused := false } =
      countdown_boundary total kind { s with is_paused := false } ∧
    (s.is_paused = false →
      countdown_boundary total kind sFwd = countdown_boundary total kind s) := by
  obtain ⟨seq, idx, p, rem, btn⟩ := s
  unfold forward at hf
  rw [CommandOutcome.ok.injEq] at hf
  obtain ⟨hs, -⟩ := hf
  subst hs
  refine ⟨rfl, countdown_boundary_time_indep total kind seq idx 0 rem btn, ?_⟩
  intro hp
  simp only at hp
  subst hp
  exact countdown_boundary_time_indep total kind seq idx 0 rem btn

theorem forward_boundary_check :
    countdown_boundary 2 Kind.work ⟨[((60 : Nat), Kind.work)], 0, false, 0, true⟩ =
      countdown_boundary 2 Kind.work ⟨[((60 : Nat), Kind.work)], 0, false, 42, true⟩ :=
  (forward_boundary_spec 2 Kind.work ⟨[((60 : Nat), Kind.work)], 0, false, 42, true⟩
    ⟨[((60 : Nat), Kind.work)], 0, false, 0, true⟩ rfl).2.2 rfl

/-- C8: when the last session of the sequence counts down to 0 while
running, the engine completes: the index moves past the end of the
sequence, `is_paused` becomes true and the start/pause button is
disabled. -/
theorem last_session_completed_spec (total : Nat) (s : TimerState) (sess : Session)
    (hp : s.is_paused = false)
    (hsess : s.session_sequence[s.current_session_index]? = some sess)
    (hlast : s.current_session_index + 1 = s.session_sequence.length) :
    run_timer total s =
      some ((if s.time_remaining = sess.1 ∧ sess.2 = Kind.work then [Notif.nstart] else []) ++
          (if sess.2 = Kind.work then
            [end_notification s.session_sequence s.current_session_index total] else []),
        { s with current_session_index := s.current_session_index + 1,
                 time_remaining := 0, is_paused := true, pause_button_enabled := false }) := by
  obtain ⟨seq, idx, p, rem, btn⟩ := s
  simp only at hp hlast
  subst hp
  obtain ⟨h, hval⟩ := List.getElem?_eq_some.mp hsess
  have hnone : seq[idx + 1]? = none := List.getElem?_eq_none (by omega)
  unfold run_timer
  rw [dif_pos h]
  simp only at hval
  simp [hval, hnone]

theorem last_session_completed_check :
    run_timer 1 ⟨[((60 : Nat), Kind.work)], 0, false, 25, true⟩ =
      some ([Notif.nend_final], ⟨[((60 : Nat), Kind.work)], 1, true, 0, false⟩) :=
  (last_session_completed_spec 1 ⟨[((60 : Nat), Kind.work)], 0, false, 25, true⟩
    ((60 : Nat), Kind.work) rfl rfl rfl).trans (by decide)

/-- C9: the run loop fires a start notification exactly when it
(re)activates a Work session whose `time_remaining` equals its full
duration, prepended to whatever the countdown tail produces — so the very
first Work session after a configure and start gets one, a later Work
session entered automatically after a Break gets one (its remaining time
is loaded as the full duration), and a Break session never does. -/
theorem start_classification_spec (total : Nat) (s : TimerState) (sess : Session)
    (ns : List Notif) (sf : TimerState)
    (hsess : s.session_sequence[s.current_session_index]? = some sess)
    (hcb : countdown_boundary total sess.2 s = some (ns, sf)) :
    run_timer total s =
      some ((if s.time_remaining = sess.1 ∧ sess.2 = Kind.work then [Notif.nstart] else []) ++ ns,
        sf) := by
  rw [run_timer_decomp total s sess hsess, hcb]

theorem start_classification_check :
    run_timer 1 ⟨[((60 : Nat), Kind.work)], 0, false, 60, true⟩ =
      some ([Notif.nstart, Notif.nend_final], ⟨[((60 : Nat), Kind.work)], 1, true, 0, false⟩) :=
  (start_classification_spec 1 ⟨[((60 : Nat), Kind.work)], 0, false, 60, true⟩
    ((60 : Nat), Kind.work) [Notif.nend_final] ⟨[((60 : Nat), Kind.work)], 1, true, 0, false⟩
    rfl rfl).trans (by decide)

/-- C10: with `breakMinutes = 0` and at least two work sessions, the
0-second Break at an odd index is traversed instantly: a tick has no
effect on it, its run fires no Break notification and is the same run as
the one that starts the next Work session at its full duration `w*60`,
whose start notification comes first. -/
theorem zero_break_spec (n w k : Nat) (btn : Bool) (ns : List Notif) (sf : TimerState)
    (hn : 2 ≤ n) (hk : 2 * k + 1 < 2 * n - 1)
    (hcb : countdown_boundary n Kind.work
        ⟨setupSequence n (w * 60) (0 * 60), 2 * k + 2, false, w * 60, btn⟩ = some (ns, sf)) :
    tick ⟨setupSequence n (w * 60) (0 * 60), 2 * k + 1, false, 0, btn⟩ =
      ⟨setupSequence n (w * 60) (0 * 60), 2 * k + 1, false, 0, btn⟩ ∧
    (setupSequence n (w * 60) (0 * 60))[2 * k + 1]? = some (0 * 60, Kind.brk) ∧
    (setupSequence n (w * 60) (0 * 60))[2 * k + 2]? = some (w * 60, Kind.work) ∧
    run_timer n ⟨setupSequence n (w * 60) (0 * 60), 2 * k + 1, false, 0, btn⟩ =
      run_timer n ⟨setupSequence n (w * 60) (0 * 60), 2 * k + 2, false, w * 60, btn⟩ ∧
    run_timer n ⟨setupSequence n (w * 60) (0 * 60), 2 * k + 1, false, 0, btn⟩ =
      some (Notif.nstart :: ns, sf) := by
  have hget1 : (setupSequence n (w * 60) (0 * 60))[2 * k + 1]? = some (0 * 60, Kind.brk) := by
    rw [setupSequence_eq_buildRec]
    have hg := buildRec_get (w * 60) (0 * 60) n (2 * k + 1) hk
    simpa [show ¬((2 * k + 1) % 2 = 0) from by omega] using hg
  have hget2 : (setupSequence n (w * 60) (0 * 60))[2 * k + 2]? = some (w * 60, Kind.work) := by
    rw [setupSequence_eq_buildRec]
    have hg := buildRec_get (w * 60) (0 * 60) n (2 * k + 2) (by omega)
    simpa [show (2 * k + 2) % 2 = 0 from by omega] using hg
  have hrun : run_timer n ⟨setupSequence n (w * 60) (0 * 60), 2 * k + 1, false, 0, btn⟩ =
      run_timer n ⟨setupSequence n (w * 60) (0 * 60), 2 * k + 2, false, w * 60, btn⟩ := by
    rw [run_timer_decomp n _ (0 * 60, Kind.brk) hget1]
    unfold countdown_boundary
    simp only [Bool.false_eq_true, if_false]
    rw [show (2 * k + 1 + 1) = 2 * k + 2 from rfl]
    simp only [hget2]
    cases hrt : run_timer n ⟨setupSequence n (w * 60) (0 * 60), 2 * k + 2, false, w * 60, btn⟩ with
    | none => simp [hrt]
    | some q =>
        obtain ⟨ns0, sf0⟩ := q
        simp [hrt]
  refine ⟨rfl, hget1, hget2, hrun, ?_⟩
  rw [hrun, run_timer_decomp n _ (w * 60, Kind.work) hget2, hcb]
  simp

theorem zero_break_check :
    run_timer 2 ⟨setupSequence 2 (1 * 60) (0 * 60), 1, false, 0, true⟩ =
      some ([Notif.nstart, Notif.nend_final],
        ⟨setupSequence 2 (1 * 60) (0 * 60), 3, true, 0, false⟩) :=
  (zero_break_spec 2 1 0 true [Notif.nend_final]
    ⟨setupSequence 2 (1 * 60) (0 * 60), 3, true, 0, false⟩
    (by decide) (by decide) rfl).2.2.2.2

/-- C3 counterexample: invoked on the unconfigured initial state,
`backward` and `reset_current_timer` do not report a configuration-required
error — they index the empty sequence and raise an uncaught `IndexError`
(lines 164 and 180), refuting the claim that all four commands report the
error. -/
theorem unconfigured_commands_ctrex :
    backward initState = CommandOutcome.indexError initState ∧
    reset_current_timer initState = CommandOutcome.indexError initState := ⟨rfl, rfl⟩

/-- C3 amended: while unconfigured, only `toggle_pause` reports the
configuration-required error; `forward` silently writes 0 to
`time_remaining` with no error report; `backward` and
`reset_current_timer` raise an uncaught `IndexError`. All four leave the
`TimerState` unchanged (the write of `forward` is the value already
there in any unconfigured state reached without a crash). -/
theorem unconfigured_commands_spec (s : TimerState) (hs : s.session_sequence = []) :
    toggle_pause s = CommandOutcome.reportedError s ∧
    forward s = CommandOutcome.ok { s with time_remaining := 0 } [] ∧
    backward s = CommandOutcome.indexError s ∧
    reset_current_timer s = CommandOutcome.indexError s := by
  obtain ⟨seq, idx, p, rem, btn⟩ := s
  simp only at hs
  subst hs
  refine ⟨?_, rfl, ?_, ?_⟩
  · unfold toggle_pause
    simp
  · unfold backward
    simp
  · unfold reset_current_timer
    simp

theorem unconfigured_commands_check :
    toggle_pause initState = CommandOutcome.reportedError initState :=
  (unconfigured_commands_spec initState rfl).1

/-- C4 counterexample: `setup_pomodoro` with `workSessionCount = 0` does
fail — after clearing the sequence it raises an uncaught `IndexError` at
line 90 loading the first session of the empty sequence, refuting the
claim that setup produces the empty sequence without failing. -/
theorem setup_zero_ctrex :
    setup_pomodoro 0 25 5 initState = CommandOutcome.indexError ⟨[], 0, true, 0, true⟩ := rfl

/-- C4 amended: with `workSessionCount = 0` the built sequence is empty
and `setup_pomodoro` raises an uncaught `IndexError` at line 90, having
already cleared the sequence, reset the index, paused and re-enabled the
start button; in the resulting state only `toggle_pause` reports the
configuration-required error, while `backward` and `reset_current_timer`
raise `IndexError` and `forward` is accepted silently. -/
theorem setup_zero_spec (w b : Nat) (s : TimerState) :
    setup_pomodoro 0 w b s = CommandOutcome.indexError (clearedState s) ∧
    (clearedState s).session_sequence = [] ∧
    toggle_pause (clearedState s) = CommandOutcome.reportedError (clearedState s) ∧
    backward (clearedState s) = CommandOutcome.indexError (clearedState s) ∧
    reset_current_timer (clearedState s) = CommandOutcome.indexError (clearedState s) ∧
    forward (clearedState s) =
      CommandOutcome.ok { clearedState s with time_remaining := 0 } [] := by
  obtain ⟨seq, idx, p, rem, btn⟩ := s
  refine ⟨rfl, rfl, ?_, ?_, ?_, rfl⟩
  · unfold toggle_pause clearedState
    simp
  · unfold backward clearedState
    simp
  · unfold reset_current_timer clearedState
    simp

/-- Bounds of the fields of a timer state: the index never passes one
past the end of the sequence, and the remaining time never exceeds the
current session's duration. -/
def stateBounds (s : TimerState) : Prop :=
  s.current_session_index ≤ s.session_sequence.length ∧
  ∀ sess, s.session_sequence[s.current_session_index]? = some sess →
    s.time_remaining ≤ sess.1

lemma setup_ok_bounds (n w b : Nat) (s s1 : TimerState) (ns : List Notif)
    (hset : setup_pomodoro n w b s = CommandOutcome.ok s1 ns) : stateBounds s1 := by
  obtain ⟨seq, idx, p, rem, btn⟩ := s
  simp only [setup_pomodoro] at hset
  cases hseq : (setupSequence n (w * 60) (b * 60))[(0 : Nat)]? with
  | none => rw [hseq] at hset; exact absurd hset (by simp)
  | some first =>
      rw [hseq] at hset
      rw [CommandOutcome.ok.injEq] at hset
      obtain ⟨h1, -⟩ := hset
      subst h1
      constructor
      · exact Nat.zero_le _
      · intro sess hsess
        simp only at hsess
        rw [hseq] at hsess
        cases hsess
        exact Nat.le_refl _

/-- C6 amended: in every state reachable from a configure by ticks,
boundary evaluations and navigation commands, `current_session_index` is
at most `len(session_sequence)` (it equals the length exactly in the
Completed state) and `time_remaining` is at most the current session's
duration whenever the index is in range; the claimed strict bound
`current_session_index < len(sequence)` fails in the Completed state. -/
theorem reachable_state_bounds (s : TimerState) (h : Reachable s) : stateBounds s := by
  induction h with
  | setup_ok n w b s1 ns hset => exact setup_ok_bounds n w b initState s1 ns hset
  | setup_again n w b s s1 ns hr hset ih => exact setup_ok_bounds n w b s s1 ns hset
  | setup_err n w b s s1 hr hset ih =>
      obtain ⟨seq, idx, p, rem, btn⟩ := s
      simp only [setup_pomodoro] at hset
      cases hseq : (setupSequence n (w * 60) (b * 60))[(0 : Nat)]? with
      | some first => rw [hseq] at hset; exact absurd hset (by simp)
      | none =>
          rw [hseq] at hset
          rw [CommandOutcome.indexError.injEq] at hset
          subst hset
          constructor
          · exact Nat.zero_le _
          · intro sess hsess
            simp only at hsess
            rw [hseq] at hsess
            cases hsess
  | tick_step s hr ih =>
      obtain ⟨ih1, ih2⟩ := ih
      unfold tick
      split
      · constructor
        · exact ih1
        · intro sess hsess
          simp only at hsess ⊢
          have := ih2 sess hsess
          omega
      · exact ⟨ih1, ih2⟩
  | toggle s s1 ns hr hcmd ih =>
      obtain ⟨ih1, ih2⟩ := ih
      unfold toggle_pause at hcmd
      split at hcmd
      · exact absurd hcmd (by simp)
      · split at hcmd <;>
          · rw [CommandOutcome.ok.injEq] at hcmd
            obtain ⟨h1, -⟩ := hcmd
            subst h1
            exact ⟨ih1, ih2⟩
  | fwd s s1 ns hr hcmd ih =>
      obtain ⟨ih1, ih2⟩ := ih
      unfold forward at hcmd
      rw [CommandOutcome.ok.injEq] at hcmd
      obtain ⟨h1, -⟩ := hcmd
      subst h1
      constructor
      · exact ih1
      · intro sess hsess
        exact Nat.zero_le _
  | bwd s s1 ns hr hcmd ih =>
      obtain ⟨ih1, ih2⟩ := ih
      obtain ⟨seq, idx, p, rem, btn⟩ := s
      simp only at ih1 ih2
      unfold backward at hcmd
      cases hcur : seq[idx]? with
      | none => rw [hcur] at hcmd; exact absurd hcmd (by simp)
      | some cur =>
          rw [hcur] at hcmd
          simp only at hcmd
          split at hcmd
          · rw [CommandOutcome.ok.injEq] at hcmd
            obtain ⟨h1, -⟩ := hcmd
            subst h1
            refine ⟨ih1, ?_⟩
            intro sess hsess
            simp only at hsess ⊢
            rw [hcur] at hsess
            cases hsess
            exact Nat.le_refl _
          · split at hcmd
            · cases hprev : seq[idx - 1]? with
              | none => rw [hprev] at hcmd; exact absurd hcmd (by simp)
              | some prev =>
                  rw [hprev] at hcmd
                  rw [CommandOutcome.ok.injEq] at hcmd
                  obtain ⟨h1, -⟩ := hcmd
                  subst h1
                  constructor
                  · simp only
                    omega
                  · intro sess hsess
                    simp only at hsess ⊢
                    rw [hprev] at hsess
                    cases hsess
                    exact Nat.le_refl _
            · rw [CommandOutcome.ok.injEq] at hcmd
              obtain ⟨h1, -⟩ := hcmd
              subst h1
              exact ⟨ih1, ih2⟩
  | rst s s1 ns hr hcmd ih =>
      obtain ⟨ih1, ih2⟩ := ih
      obtain ⟨seq, idx, p, rem, btn⟩ := s
      simp only at ih1 ih2
      unfold reset_current_timer at hcmd
      cases hcur : seq[idx]? with
      | none => rw [hcur] at hcmd; exact absurd hcmd (by simp)
      | some cur =>
          rw [hcur] at hcmd
          rw [CommandOutcome.ok.injEq] at hcmd
          obtain ⟨h1, -⟩ := hcmd
          subst h1
          refine ⟨ih1, ?_⟩
          intro sess hsess
          simp only at hsess ⊢
          rw [hcur] at hsess
          cases hsess
          exact Nat.le_refl _
  | boundary s s1 hr hcmd ih =>
      obtain ⟨ih1, ih2⟩ := ih
      obtain ⟨seq, idx, p, rem, btn⟩ := s
      simp only at ih1 ih2
      unfold boundary_step at hcmd
      cases hcur : seq[idx]? with
      | none => rw [hcur] at hcmd; exact absurd hcmd (by simp)
      | some cur =>
          rw [hcur] at hcmd
          simp only at hcmd
          split at hcmd
          · cases hnext : seq[idx + 1]? with
            | some next =>
                rw [hnext] at hcmd
                simp only [Option.some.injEq] at hcmd
                subst hcmd
                have h2 : idx + 1 < seq.length := (List.getElem?_eq_some.mp hnext).1
                constructor
                · simp only
                  omega
                · intro sess hsess
                  simp only at hsess ⊢
                  rw [hnext] at hsess
                  cases hsess
                  exact Nat.le_refl _
            | none =>
                rw [hnext] at hcmd
                simp only [Option.some.injEq] at hcmd
                subst hcmd
                have h2 : idx < seq.length := (List.getElem?_eq_some.mp hcur).1
                constructor
                · simp only
                  omega
                · intro sess hsess
                  simp only at hsess
                  rw [hnext] at hsess
                  cases hsess
          · exact absurd hcmd (by simp)

theorem reachable_bounds_check :
    stateBounds ⟨[((60 : Nat), Kind.work)], 0, true, 60, true⟩ :=
  reachable_state_bounds _ (Reachable.setup_ok 1 1 1 _ [] rfl)

/-- C6 counterexample: completing the single session of a configured
1-session run (configure, start, skip forward, boundary) reaches a state
whose `current_session_index` equals the sequence length, violating the
claimed invariant `currentIndex < len(sequence)`. -/
theorem reachable_bounds_ctrex :
    Reachable ⟨[((60 : Nat), Kind.work)], 1, true, 0, false⟩ ∧
    ¬ ((⟨[((60 : Nat), Kind.work)], 1, true, 0, false⟩ : TimerState).current_session_index <
        (⟨[((60 : Nat), Kind.work)], 1, true, 0, false⟩ : TimerState).session_sequence.length) := by
  constructor
  · have h0 : Reachable ⟨[((60 : Nat), Kind.work)], 0, true, 60, true⟩ :=
      Reachable.setup_ok 1 1 1 _ [] rfl
    have h1 : Reachable ⟨[((60 : Nat), Kind.work)], 0, false, 60, true⟩ :=
      Reachable.toggle _ _ [] h0 rfl
    have h2 : Reachable ⟨[((60 : Nat), Kind.work)], 0, false, 0, true⟩ :=
      Reachable.fwd _ _ [] h1 rfl
    exact Reachable.boundary _ _ h2 rfl
  · decide

end Pomodoro
